import Mathlib

/-!
Shallow embedding of the validation-fields library
(src/validation-fields.ts): each JavaScript function is translated to a
Lean function over `List Char` (JS strings), with JS `NaN` propagation
modelled by `Option` and the host date parser and system clock
abstracted as explicit parameters.
-/

namespace ValidationFields

/-- Character class matched by the JS regex `\s` (ECMAScript WhiteSpace
and LineTerminator characters). -/
def isJsWs (c : Char) : Bool :=
  c == ' ' || c == '\t' || c == '\n' || c.val == 11 || c.val == 12 || c == '\r' ||
  c.val == 0xa0 || c.val == 0x1680 || (0x2000 ≤ c.val && c.val ≤ 0x200a) ||
  c.val == 0x2028 || c.val == 0x2029 || c.val == 0x202f || c.val == 0x205f ||
  c.val == 0x3000 || c.val == 0xfeff

/-- Models the call `input.replace(/^\s+|\s+$/, ...)` of `email` that
replaces the match with an empty string.  The regex has no `g` flag, so
`String.prototype.replace` removes only the FIRST match of the
alternation: the maximal leading whitespace run when there is one,
otherwise the maximal trailing whitespace run. -/
def emailReplaceWs (s : List Char) : List Char :=
  if (s.takeWhile isJsWs).isEmpty then (s.reverse.dropWhile isJsWs).reverse
  else s.dropWhile isJsWs

/-- Character class `[-0-9a-zA-Z.+_]` of the email regex. -/
def emailClassChar (c : Char) : Bool :=
  c == '-' || c.isDigit || ('a' ≤ c && c ≤ 'z') || ('A' ≤ c && c ≤ 'Z') ||
  c == '.' || c == '+' || c == '_'

/-- Character class `[a-zA-Z]` of the email regex tail (the `i` flag
makes case irrelevant; both cases are listed). -/
def emailAlpha (c : Char) : Bool :=
  ('a' ≤ c && c ≤ 'z') || ('A' ≤ c && c ≤ 'Z')

/-- Anchored match of `/^[-0-9a-zA-Z.+_]+@[-0-9a-zA-Z.+_]+\.[a-zA-Z]{2,4}$/i`:
the string matches iff it decomposes as `A ++ [at] ++ B ++ [dot] ++ C`
with `A` and `B` nonempty over the class and `C` alphabetic of length 2
to 4.  The decomposition is searched over the position `i` of the `@`
and the position `j` of the final dot. -/
def emailRegexTest (s : List Char) : Bool :=
  (List.range s.length).any fun i =>
    (List.range s.length).any fun j =>
      s.get? i == some '@' && s.get? j == some '.' &&
      decide (0 < i) && decide (i + 1 < j) &&
      decide (j + 3 ≤ s.length) && decide (s.length ≤ j + 5) &&
      (s.take i).all emailClassChar &&
      ((s.drop (i + 1)).take (j - i - 1)).all emailClassChar &&
      (s.drop (j + 1)).all emailAlpha

/-- Function `email(input)`: first-match whitespace removal, then the
anchored regex test. -/
def email (input : List Char) : Bool :=
  emailRegexTest (emailReplaceWs input)

/-- Function `isNumber(input)`: the regex test `/^[0-9]+$/.test(input)`,
true for one or more ASCII digits and nothing else. -/
def isNumber (s : List Char) : Bool :=
  !s.isEmpty && s.all Char.isDigit

/-- Regex `/^(.)\1+$/` used by the phone validators: a first character
followed by one or more repetitions of that same character (so it only
matches strings of length at least 2). -/
def allDigitsSame : List Char → Bool
  | c1 :: c2 :: rest => c2 == c1 && rest.all (fun c => c == c1)
  | _ => false

/-- Membership of a character in an inclusive regex range such as `[1-9]`. -/
def charBetween (c lo hi : Char) : Bool :=
  lo ≤ c && c ≤ hi

/-- Anchored match of `/^[1-9]{2}[2-5]{1}[0-9]{3}[0-9]{4}$/`: exactly 10
characters, the first two in the range 1 to 9, the third in the range 2
to 5, the remaining seven digits. -/
def landlineRegex (s : List Char) : Bool :=
  s.length == 10 && charBetween (s.getD 0 ' ') '1' '9' &&
  charBetween (s.getD 1 ' ') '1' '9' && charBetween (s.getD 2 ' ') '2' '5' &&
  (s.drop 3).all Char.isDigit

/-- Anchored match of `/^[1-9]{2}[6-9]{1}[0-9]{8}$/`: exactly 11
characters, the first two in the range 1 to 9, the third in the range 6
to 9, the remaining eight digits. -/
def cellRegex (s : List Char) : Bool :=
  s.length == 11 && charBetween (s.getD 0 ' ') '1' '9' &&
  charBetween (s.getD 1 ' ') '1' '9' && charBetween (s.getD 2 ' ') '6' '9' &&
  (s.drop 3).all Char.isDigit

/-- Function `isLandline(input)`: strip non-digits
(`replace(/[^0-9]+/g, ...)` with an empty replacement), return false
when `isNumber` fails, return false when all characters are the same,
otherwise the landline regex decides. -/
def isLandline (input : List Char) : Bool :=
  let digits := input.filter Char.isDigit
  if !(isNumber digits) then false
  else if allDigitsSame digits then false
  else landlineRegex digits

/-- Function `isCellPhone(input)`: same structure as `isLandline` with
the mobile regex. -/
def isCellPhone (input : List Char) : Bool :=
  let digits := input.filter Char.isDigit
  if !(isNumber digits) then false
  else if allDigitsSame digits then false
  else cellRegex digits

/-- Models `parseInt(cpf.charAt(i))`: `charAt` at an out-of-range index
yields the empty string, whose `parseInt` is `NaN` (modelled `none`); a
digit character parses to its value; any other single character also
gives `NaN`. -/
def parseIntAt (s : List Char) (i : Nat) : Option Nat :=
  match s.get? i with
  | some c => if c.isDigit then some (c.toNat - '0'.toNat) else none
  | none => none

/-- One iteration `add += parseInt(cpf.charAt(i)) * (w - i)` of the CPF
loops, with `NaN` (`none`) absorbing. -/
def cpfAdd (cpf : List Char) (w : Nat) (acc : Option Nat) (i : Nat) : Option Nat :=
  match acc, parseIntAt cpf i with
  | some a, some d => some (a + d * (w - i))
  | _, _ => none

/-- Models `rev = 11 - (add % 11)` followed by the normalisation
`if (rev === 10 || rev === 11) rev = 0`, with `NaN` propagating. -/
def cpfRev (sum : Option Nat) : Option Nat :=
  match sum with
  | some a =>
    let r := 11 - a % 11
    some (if r = 10 ∨ r = 11 then 0 else r)
  | none => none

/-- JS strict equality `===` restricted to numbers, where `none` is
`NaN`: comparing `NaN` with anything is false. -/
def numStrictEq (a b : Option Nat) : Bool :=
  match a, b with
  | some x, some y => x == y
  | _, _ => false

/-- Function `isValidCpf(input)`: strip non-digits, run the two
weighted-sum loops (`i` in `[0,9)` with weight `10 - i`, then `i` in
`[0,10)` with weight `11 - i`), normalise each remainder and compare it
strictly to the digit at index 9 resp. 10.  The JS function returns
false at the first mismatch, which the conjunction reproduces. -/
def isValidCpf (input : List Char) : Bool :=
  let cpf := input.filter Char.isDigit
  numStrictEq (cpfRev ((List.range 9).foldl (cpfAdd cpf 10) (some 0))) (parseIntAt cpf 9) &&
  numStrictEq (cpfRev ((List.range 10).foldl (cpfAdd cpf 11) (some 0))) (parseIntAt cpf 10)

/-- Numeric value of the digit at index `i` of a stripped CPF string
(spec side; `getD` is total, and under the length hypotheses of the
theorems the default is never used). -/
def cpfDigit (cpf : List Char) (i : Nat) : Nat :=
  (cpf.getD i '0').toNat - '0'.toNat

/-- Spec-side weighted digit sum: sum of `digit[i] * (w - i)` for `i` in
`[0, n)`. -/
def cpfWeightedSum (cpf : List Char) (n w : Nat) : Nat :=
  ((List.range n).map (fun i => cpfDigit cpf i * (w - i))).sum

/-- Spec-side check value: `11 - (sum mod 11)`, normalised to `0` when
it is `10` or `11`. -/
def cpfCheckValue (sum : Nat) : Nat :=
  if 11 - sum % 11 = 10 ∨ 11 - sum % 11 = 11 then 0 else 11 - sum % 11

/-- Spec-side CPF validity, following the words of the specification:
both check values equal the corresponding check digits. -/
def cpfSpecValid (cpf : List Char) : Bool :=
  (cpfCheckValue (cpfWeightedSum cpf 9 10) == cpfDigit cpf 9) &&
  (cpfCheckValue (cpfWeightedSum cpf 10 11) == cpfDigit cpf 10)

/-- Models `input.split(sep)` for a single-character separator, with JS
semantics: splitting the empty string gives one empty part, separators
at the ends produce empty parts. -/
def splitOnChar (sep : Char) : List Char → List (List Char)
  | [] => [[]]
  | c :: cs =>
    if c == sep then [] :: splitOnChar sep cs
    else
      match splitOnChar sep cs with
      | part :: rest => (c :: part) :: rest
      | [] => [[c]]

/-- Letters of the word undefined: interpolating a missing array element
into a JS template literal prints undefined. -/
def undefinedChars : List Char :=
  ['u', 'n', 'd', 'e', 'f', 'i', 'n', 'e', 'd']

/-- JS array indexing as used by destructuring and template literals: a
missing element is `undefined`, which stringifies to the word
undefined. -/
def jsAt (parts : List (List Char)) (i : Nat) : List Char :=
  (parts.get? i).getD undefinedChars

/-- Reassembled string of the `pt` branch of `date`: the template
literal built from `dateBr[2]`, `dateBr[1]` and `dateBr[0]` joined by
dashes. -/
def ptDateString (input : List Char) : List Char :=
  let dateBr := splitOnChar '/' input
  jsAt dateBr 2 ++ '-' :: jsAt dateBr 1 ++ '-' :: jsAt dateBr 0

/-- Function `date(input, format)`.  The host behaviour is abstracted:
`parse` is `new Date(string).getTime()` (with `none` for the `NaN` of an
Invalid Date), `nowMs` is `now.getTime()` and `nowTime` is
`now.toLocaleTimeString()`.  The JS guard `!Array.isArray(dateBr)` is
always false (`split` returns an array) and is dropped.  The comparison
`dateInfo.getTime() > now.getTime()` is false when `getTime()` is `NaN`,
so an unparseable string falls through to `return true`. -/
def date (parse : List Char → Option Int) (nowMs : Int) (nowTime : List Char)
    (input : List Char) (format : String) : Bool :=
  if format = "pt" then
    let dateBr := splitOnChar '/' input
    if dateBr.length ≠ 3 then false
    else
      match parse (ptDateString input ++ ' ' :: nowTime) with
      | none => true
      | some t => if t > nowMs then false else true
  else
    match parse (input ++ ' ' :: nowTime) with
    | none => true
    | some t => if t > nowMs then false else true

/-- Function `isDate(input)`: `new Date(input)` is a valid date, i.e.
the host parser (`parse`) succeeds. -/
def isDate (parse : List Char → Option Int) (input : List Char) : Bool :=
  (parse input).isSome

/-- Function `formatPtBrDateToEn(input)`: the JS boolean false (here
`none`) unless `isDate`; otherwise split on the slash, destructure
`[day, month, year]` (a missing part is `undefined`) and build the
template `year-month-day`. -/
def formatPtBrDateToEn (parse : List Char → Option Int) (input : List Char) :
    Option (List Char) :=
  if isDate parse input then
    let parts := splitOnChar '/' input
    some (jsAt parts 2 ++ '-' :: jsAt parts 1 ++ '-' :: jsAt parts 0)
  else none

/-- Function `formatEnDateToPtBr(input)`: the JS boolean false (here
`none`) unless `isDate`; otherwise split on the dash, destructure
`[year, month, day]` and build the template `day/month/year`. -/
def formatEnDateToPtBr (parse : List Char → Option Int) (input : List Char) :
    Option (List Char) :=
  if isDate parse input then
    let parts := splitOnChar '-' input
    some (jsAt parts 2 ++ '/' :: jsAt parts 1 ++ '/' :: jsAt parts 0)
  else none

/-! Helper lemmas shared by the claim theorems. -/

/-- Unfolding of `isLandline` into a conjunction of its three steps. -/
theorem isLandline_eq (s : List Char) :
    isLandline s =
      (isNumber (s.filter Char.isDigit) && !allDigitsSame (s.filter Char.isDigit) &&
        landlineRegex (s.filter Char.isDigit)) := by
  cases hN : isNumber (s.filter Char.isDigit) <;>
    cases hA : allDigitsSame (s.filter Char.isDigit) <;>
      simp [isLandline, hN, hA]

/-- Unfolding of `isCellPhone` into a conjunction of its three steps. -/
theorem isCellPhone_eq (s : List Char) :
    isCellPhone s =
      (isNumber (s.filter Char.isDigit) && !allDigitsSame (s.filter Char.isDigit) &&
        cellRegex (s.filter Char.isDigit)) := by
  cases hN : isNumber (s.filter Char.isDigit) <;>
    cases hA : allDigitsSame (s.filter Char.isDigit) <;>
      simp [isCellPhone, hN, hA]

/-- No string matches both phone regexes: one requires length 10, the
other length 11. -/
theorem landline_cell_regex_excl (d : List Char) :
    (landlineRegex d && cellRegex d) = false := by
  by_cases hd : d.length = 10
  · have h11 : (d.length == 11) = false := by simp [hd]
    simp [cellRegex, h11]
  · have h10 : (d.length == 10) = false := by simp [hd]
    simp [landlineRegex, h10]

/-- Reading past the end of the string gives `NaN`. -/
theorem parseIntAt_oob (s : List Char) (i : Nat) (h : s.length ≤ i) :
    parseIntAt s i = none := by
  simp [parseIntAt, List.get?_eq_getElem?, List.getElem?_eq_none h]

/-- Strict equality against `NaN` is always false. -/
theorem numStrictEq_none_right (a : Option Nat) : numStrictEq a none = false := by
  cases a <;> rfl

/-- Every character surviving the digit filter is a digit. -/
theorem filter_digits_all (s : List Char) :
    ∀ c ∈ s.filter Char.isDigit, c.isDigit = true := by
  intro c hc
  exact (List.mem_filter.mp hc).2

/-- Within bounds of an all-digit string, `parseIntAt` returns the digit
value. -/
theorem parseIntAt_digits (cpf : List Char) (hall : ∀ c ∈ cpf, c.isDigit = true)
    (i : Nat) (hi : i < cpf.length) :
    parseIntAt cpf i = some (cpfDigit cpf i) := by
  have hget : cpf.get? i = some cpf[i] := by
    rw [List.get?_eq_getElem?, List.getElem?_eq_getElem hi]
  have hdig : cpf[i].isDigit = true := hall _ (List.getElem_mem hi)
  simp [parseIntAt, hget, hdig, cpfDigit, List.getD_eq_getElem?_getD,
    List.getElem?_eq_getElem hi]

/-- On an all-digit string the source-side fold computes the spec-side
weighted sum without ever hitting `NaN`. -/
theorem cpfFold_eq_sum (cpf : List Char) (w : Nat)
    (hall : ∀ c ∈ cpf, c.isDigit = true) (n : Nat) (hn : n ≤ cpf.length) :
    (List.range n).foldl (cpfAdd cpf w) (some 0) = some (cpfWeightedSum cpf n w) := by
  induction n with
  | zero => simp [cpfWeightedSum]
  | succ m ih =>
    rw [List.range_succ, List.foldl_append, ih (Nat.le_of_succ_le hn)]
    have hp : parseIntAt cpf m = some (cpfDigit cpf m) :=
      parseIntAt_digits cpf hall m (Nat.lt_of_lt_of_le (Nat.lt_succ_self m) hn)
    simp [cpfAdd, hp, cpfWeightedSum, List.range_succ]

/-- Case analysis of the `pt` branch of `date`, for every host parser
and clock: fewer or more than 3 parts give false; with 3 parts the
result is decided by comparing the parsed reassembled string to now,
an unparseable string giving true. -/
theorem date_pt_cases (parse : List Char → Option Int) (nowMs : Int)
    (nowTime input : List Char) :
    date parse nowMs nowTime input "pt" =
      (if (splitOnChar '/' input).length = 3 then
        match parse (ptDateString input ++ ' ' :: nowTime) with
        | some t => !(decide (t > nowMs))
        | none => true
       else false) := by
  by_cases h3 : (splitOnChar '/' input).length = 3
  · cases hp : parse (ptDateString input ++ ' ' :: nowTime) with
    | none => simp [date, h3, hp]
    | some t => by_cases ht : t > nowMs <;> simp [date, h3, hp, ht]
  · simp [date, h3]

/-- A digit character never equals a non-digit character under `==`. -/
theorem digit_beq_ne (c s : Char) (h : c.isDigit = true) (hs : s.isDigit = false) :
    (c == s) = false := by
  cases hb : c == s
  · rfl
  · have hcs : c = s := eq_of_beq hb
    rw [hcs] at h
    exact Bool.noConfusion (h ▸ hs)

/-- Splitting a string that contains no separator gives one part. -/
theorem splitOnChar_no_sep (sep : Char) (l : List Char)
    (h : ∀ c ∈ l, (c == sep) = false) : splitOnChar sep l = [l] := by
  induction l with
  | nil => rfl
  | cons c cs ih =>
    have ih2 := ih (fun x hx => h x (List.mem_cons_of_mem c hx))
    simp [splitOnChar, h c (List.mem_cons_self c cs), ih2]

/-- Splitting peels off a separator-free prefix as the first part. -/
theorem splitOnChar_append (sep : Char) (a b : List Char)
    (h : ∀ c ∈ a, (c == sep) = false) :
    splitOnChar sep (a ++ sep :: b) = a :: splitOnChar sep b := by
  induction a with
  | nil => simp [splitOnChar]
  | cons c cs ih =>
    have ih2 := ih (fun x hx => h x (List.mem_cons_of_mem c hx))
    simp [splitOnChar, h c (List.mem_cons_self c cs), ih2]

/-! Claim theorems. -/

/-- Claim C1: for every input string that still contains at least 11
digits after all non-digit characters are stripped, `isValidCpf`
returns true if and only if both check digits match the two-pass
weighted modulo-11 algorithm: the first check value is 11 minus the
residue mod 11 of the sum of `digit[i] * (10 - i)` over `i` in `[0,9)`,
normalised to 0 when it is 10 or 11, and must equal digit 9; the second
uses weights `11 - i` over `i` in `[0,10)` and must equal digit 10. -/
theorem cpf_checksum_characterization (s : List Char)
    (h : 11 ≤ (s.filter Char.isDigit).length) :
    isValidCpf s = cpfSpecValid (s.filter Char.isDigit) := by
  have hall := filter_digits_all s
  simp only [isValidCpf]
  rw [cpfFold_eq_sum _ 10 hall 9 (by omega), cpfFold_eq_sum _ 11 hall 10 (by omega),
    parseIntAt_digits _ hall 9 (by omega), parseIntAt_digits _ hall 10 (by omega)]
  simp [cpfRev, numStrictEq, cpfSpecValid, cpfCheckValue]

/-- Witness for C1 at the valid formatted CPF 111.444.777-35. -/
theorem cpf_checksum_characterization_witness :
    11 ≤ (("111.444.777-35".toList).filter Char.isDigit).length ∧
    isValidCpf ("111.444.777-35".toList) =
      cpfSpecValid (("111.444.777-35".toList).filter Char.isDigit) :=
  ⟨by decide, cpf_checksum_characterization _ (by decide)⟩

/-- Claim C2 (refuted; code bug): the claim says `email` trims leading
and trailing whitespace, so padding both sides does not change the
result.  In the code the replace call lacks the `g` flag and removes
only the first whitespace run, so an address padded on both sides keeps
its trailing whitespace and is rejected, while the same address padded
on one side only is accepted. -/
theorem email_whitespace_divergence :
    email (" a@b.co ".toList) = false ∧ email ("a@b.co".toList) = true ∧
    email ("a@b.co ".toList) = true ∧ email (" a@b.co".toList) = true := by
  refine ⟨by decide, by decide, by decide, by decide⟩

/-- Claim C3: for every host parser, clock value, time-of-day string
and input, `date(input, format)` with the `pt` format splits the input
on the slash and returns false unless exactly 3 parts result; otherwise
it reassembles the parts in reverse order joined by dashes, appends the
current time of day, parses that string, and returns false exactly when
the parsed moment is strictly after the current moment (an unparseable
string is never strictly after now, so it yields true). -/
theorem date_pt_structure (parse : List Char → Option Int) (nowMs : Int)
    (nowTime input : List Char) :
    date parse nowMs nowTime input "pt" =
      (if (splitOnChar '/' input).length = 3 then
        match parse (ptDateString input ++ ' ' :: nowTime) with
        | some t => !(decide (t > nowMs))
        | none => true
       else false) :=
  date_pt_cases parse nowMs nowTime input

/-- Claim C4: whenever the input splits on the slash into exactly 3
parts but the reassembled string fails to parse (an Invalid Date, whose
`getTime()` is `NaN`), the comparison against now is false and the
function returns true. -/
theorem date_pt_invalid_parse_true (parse : List Char → Option Int) (nowMs : Int)
    (nowTime input : List Char)
    (h3 : (splitOnChar '/' input).length = 3)
    (hp : parse (ptDateString input ++ ' ' :: nowTime) = none) :
    date parse nowMs nowTime input "pt" = true := by
  rw [date_pt_cases, if_pos h3, hp]

/-- Witness for C4 with a parser that rejects every string. -/
theorem date_pt_invalid_parse_true_witness :
    (splitOnChar '/' ("1/2/3".toList)).length = 3 ∧
    date (fun _ => none) 0 [] ("1/2/3".toList) "pt" = true :=
  ⟨by decide, date_pt_invalid_parse_true (fun _ => none) 0 [] ("1/2/3".toList) (by decide) rfl⟩

/-- Claim C5: `isLandline` strips all non-digit characters, returns
false when the remainder fails `isNumber`, returns false when all the
remaining digits are identical, and otherwise returns true iff the
digits match the pattern two digits in 1 to 9, one digit in 2 to 5,
then 3 digits, then 4 digits (10 digits total); with the three
concrete examples of the specification. -/
theorem landline_characterization :
    (∀ s : List Char, isLandline s =
      (isNumber (s.filter Char.isDigit) && !allDigitsSame (s.filter Char.isDigit) &&
        landlineRegex (s.filter Char.isDigit))) ∧
    isLandline ("11999999999".toList) = false ∧
    isLandline ("1133334444".toList) = true ∧
    isLandline ("1111111111".toList) = false :=
  ⟨isLandline_eq, by decide, by decide, by decide⟩

/-- Claim C6: `isNumber` returns true iff the input consists of one or
more ASCII digits with no sign, no decimal point and no surrounding
whitespace; with the four concrete examples of the specification. -/
theorem isNumber_digit_characterization :
    (∀ s : List Char, isNumber s = true ↔ s ≠ [] ∧ ∀ c ∈ s, '0' ≤ c ∧ c ≤ '9') ∧
    isNumber ("007".toList) = true ∧ isNumber ("-1".toList) = false ∧
    isNumber ("1.5".toList) = false ∧ isNumber ("".toList) = false := by
  refine ⟨fun s => ?_, by decide, by decide, by decide, by decide⟩
  simp [isNumber, List.all_eq_true, Char.isDigit, Char.le_def, List.isEmpty_iff]

/-- Claim C7: round trip of the date-format transforms.  For every
digit-built DD/MM/YYYY string accepted by `isDate` whose converted
YYYY-MM-DD form is also accepted by `isDate`, applying
`formatEnDateToPtBr` to the output of `formatPtBrDateToEn` gives the
original string back. -/
theorem date_format_round_trip (parse : List Char → Option Int)
    (d1 d2 m1 m2 y1 y2 y3 y4 : Char) (en : List Char)
    (hd1 : d1.isDigit = true) (hd2 : d2.isDigit = true)
    (hm1 : m1.isDigit = true) (hm2 : m2.isDigit = true)
    (hy1 : y1.isDigit = true) (hy2 : y2.isDigit = true)
    (hy3 : y3.isDigit = true) (hy4 : y4.isDigit = true)
    (h1 : formatPtBrDateToEn parse [d1, d2, '/', m1, m2, '/', y1, y2, y3, y4] = some en)
    (h2 : isDate parse en = true) :
    formatEnDateToPtBr parse en = some [d1, d2, '/', m1, m2, '/', y1, y2, y3, y4] := by
  have q1 : ∀ c ∈ [d1, d2], (c == '/') = false := by
    intro c hc
    simp only [List.mem_cons, List.not_mem_nil, or_false] at hc
    rcases hc with rfl | rfl
    · exact digit_beq_ne _ _ hd1 (by decide)
    · exact digit_beq_ne _ _ hd2 (by decide)
  have q2 : ∀ c ∈ [m1, m2], (c == '/') = false := by
    intro c hc
    simp only [List.mem_cons, List.not_mem_nil, or_false] at hc
    rcases hc with rfl | rfl
    · exact digit_beq_ne _ _ hm1 (by decide)
    · exact digit_beq_ne _ _ hm2 (by decide)
  have q3 : ∀ c ∈ [y1, y2, y3, y4], (c == '/') = false := by
    intro c hc
    simp only [List.mem_cons, List.not_mem_nil, or_false] at hc
    rcases hc with rfl | rfl | rfl | rfl
    · exact digit_beq_ne _ _ hy1 (by decide)
    · exact digit_beq_ne _ _ hy2 (by decide)
    · exact digit_beq_ne _ _ hy3 (by decide)
    · exact digit_beq_ne _ _ hy4 (by decide)
  have hsp : splitOnChar '/' [d1, d2, '/', m1, m2, '/', y1, y2, y3, y4] =
      [[d1, d2], [m1, m2], [y1, y2, y3, y4]] := by
    have e1 : [d1, d2, '/', m1, m2, '/', y1, y2, y3, y4] =
        [d1, d2] ++ '/' :: ([m1, m2] ++ '/' :: [y1, y2, y3, y4]) := rfl
    rw [e1, splitOnChar_append _ _ _ q1, splitOnChar_append _ _ _ q2,
      splitOnChar_no_sep _ _ q3]
  cases hisd : isDate parse [d1, d2, '/', m1, m2, '/', y1, y2, y3, y4] with
  | false =>
    rw [formatPtBrDateToEn, hisd] at h1
    simp at h1
  | true =>
    have hval : formatPtBrDateToEn parse [d1, d2, '/', m1, m2, '/', y1, y2, y3, y4] =
        some [y1, y2, y3, y4, '-', m1, m2, '-', d1, d2] := by
      simp [formatPtBrDateToEn, hisd, hsp, jsAt]
    have hen : en = [y1, y2, y3, y4, '-', m1, m2, '-', d1, d2] := by
      have h3 := hval.symm.trans h1
      exact (Option.some.inj h3).symm
    subst hen
    have q4 : ∀ c ∈ [y1, y2, y3, y4], (c == '-') = false := by
      intro c hc
      simp only [List.mem_cons, List.not_mem_nil, or_false] at hc
      rcases hc with rfl | rfl | rfl | rfl
      · exact digit_beq_ne _ _ hy1 (by decide)
      · exact digit_beq_ne _ _ hy2 (by decide)
      · exact digit_beq_ne _ _ hy3 (by decide)
      · exact digit_beq_ne _ _ hy4 (by decide)
    have q5 : ∀ c ∈ [m1, m2], (c == '-') = false := by
      intro c hc
      simp only [List.mem_cons, List.not_mem_nil, or_false] at hc
      rcases hc with rfl | rfl
      · exact digit_beq_ne _ _ hm1 (by decide)
      · exact digit_beq_ne _ _ hm2 (by decide)
    have q6 : ∀ c ∈ [d1, d2], (c == '-') = false := by
      intro c hc
      simp only [List.mem_cons, List.not_mem_nil, or_false] at hc
      rcases hc with rfl | rfl
      · exact digit_beq_ne _ _ hd1 (by decide)
      · exact digit_beq_ne _ _ hd2 (by decide)
    have hsp2 : splitOnChar '-' [y1, y2, y3, y4, '-', m1, m2, '-', d1, d2] =
        [[y1, y2, y3, y4], [m1, m2], [d1, d2]] := by
      have e2 : [y1, y2, y3, y4, '-', m1, m2, '-', d1, d2] =
          [y1, y2, y3, y4] ++ '-' :: ([m1, m2] ++ '-' :: [d1, d2]) := rfl
      rw [e2, splitOnChar_append _ _ _ q4, splitOnChar_append _ _ _ q5,
        splitOnChar_no_sep _ _ q6]
    simp [formatEnDateToPtBr, h2, hsp2, jsAt]

/-- Witness for C7 on the date 25/12/2024 with a parser accepting every
string. -/
theorem date_format_round_trip_witness :
    formatPtBrDateToEn (fun _ => some 0) ['2', '5', '/', '1', '2', '/', '2', '0', '2', '4'] =
      some ['2', '0', '2', '4', '-', '1', '2', '-', '2', '5'] ∧
    formatEnDateToPtBr (fun _ => some 0) ['2', '0', '2', '4', '-', '1', '2', '-', '2', '5'] =
      some ['2', '5', '/', '1', '2', '/', '2', '0', '2', '4'] :=
  ⟨by decide,
    date_format_round_trip (fun _ => some 0) '2' '5' '1' '2' '2' '0' '2' '4'
      ['2', '0', '2', '4', '-', '1', '2', '-', '2', '5']
      (by decide) (by decide) (by decide) (by decide)
      (by decide) (by decide) (by decide) (by decide) (by decide) rfl⟩

/-- Claim C8: `isValidCpf` does not reject all-identical-digit strings.
The all-zero 11-digit string passes both modulo-11 checks, and in fact
every 11-fold repetition of a single digit is accepted. -/
theorem cpf_repdigit_accepted :
    isValidCpf ("00000000000".toList) = true ∧
    (['0', '1', '2', '3', '4', '5', '6', '7', '8', '9'].all fun d =>
      isValidCpf (List.replicate 11 d)) = true := by
  refine ⟨by decide, by decide⟩

/-- Claim C9: for every input whose digit-stripped form has fewer than
11 digits (including the empty string), `isValidCpf` returns false with
no out-of-bounds access: a missing character position parses to `NaN`,
which the strict comparison never matches, so one of the two mismatch
branches is taken. -/
theorem cpf_short_input_false (s : List Char)
    (h : (s.filter Char.isDigit).length < 11) : isValidCpf s = false := by
  simp only [isValidCpf]
  by_cases h9 : (s.filter Char.isDigit).length ≤ 9
  · rw [parseIntAt_oob _ _ h9, numStrictEq_none_right, Bool.false_and]
  · have h10 : (s.filter Char.isDigit).length ≤ 10 := by omega
    rw [parseIntAt_oob _ _ h10, numStrictEq_none_right, Bool.and_false]

/-- Witness for C9 on a 3-digit input. -/
theorem cpf_short_input_false_witness :
    (("123".toList).filter Char.isDigit).length < 11 ∧
    isValidCpf ("123".toList) = false :=
  ⟨by decide, cpf_short_input_false ("123".toList) (by decide)⟩

/-- Claim C10: `isLandline` and `isCellPhone` are mutually exclusive
for every input: the landline regex accepts only 10-digit strings and
the mobile regex only 11-digit strings over the same stripped digit
string, so at most one of the two predicates holds. -/
theorem landline_cell_exclusive (s : List Char) :
    (isLandline s && isCellPhone s) = false := by
  rw [isLandline_eq, isCellPhone_eq]
  cases hL : landlineRegex (s.filter Char.isDigit)
  · simp [hL]
  · have hx := landline_cell_regex_excl (s.filter Char.isDigit)
    rw [hL] at hx
    simp only [Bool.true_and] at hx
    simp [hx]

end ValidationFields
